import Mathlib

/- Verification of the prod-langgraph chat service against its specification.

   Python strings are modelled as lists of characters (so slicing is
   List.take); dictionaries returned by handlers are modelled as structures,
   with Option fields encoding keys that may be absent from the returned
   dict.  Wall-clock fields (execution_time, timestamps as floats) are
   carried as opaque strings or omitted where noted. -/

/-- A stored chat message (a langchain BaseMessage as the service sees it):
id, type (human / ai / tool) and content.  Content is a character list,
mirroring a Python str, so that the slice content[:200] is List.take 200. -/
structure Msg where
  id : String
  msgType : String
  content : List Char
deriving DecidableEq

/-- A checkpoint as ChatService.get_checkpoint_list reads it back from
checkpointer.alist: the checkpoint_ns of its config, the metadata source,
the checkpoint_id, the metadata step, the ts field, and the value of the
messages channel in channel_values. -/
structure Checkpoint where
  checkpointNs : String
  source : String
  checkpointId : String
  step : Nat
  ts : String
  messages : List Msg
deriving DecidableEq

/-- MessageInfo DTO (app/dto/chat_dto.py). -/
structure MessageInfo where
  id : String
  msgType : String
  content : List Char
deriving DecidableEq

/-- CheckpointInfo DTO (app/dto/chat_dto.py). -/
structure CheckpointInfo where
  checkpointId : String
  step : Nat
  timestamp : String
  messagesCount : Nat
  messages : List MessageInfo
deriving DecidableEq

/-- CheckpointListResponse DTO (app/dto/chat_dto.py). -/
structure CheckpointListResponse where
  sessionId : String
  total : Nat
  checkpoints : List CheckpointInfo
deriving DecidableEq

/-- The MessageInfo built for one message inside get_checkpoint_list:
content is truncated with content[:200]. -/
def mkMessageInfo (m : Msg) : MessageInfo :=
  { id := m.id, msgType := m.msgType, content := m.content.take 200 }

/-- The CheckpointInfo built for one surviving checkpoint inside
get_checkpoint_list (chat_service.py lines 104-117). -/
def mkCheckpointInfo (cp : Checkpoint) : CheckpointInfo :=
  { checkpointId := cp.checkpointId
    step := cp.step
    timestamp := cp.ts
    messagesCount := cp.messages.length
    messages := cp.messages.map mkMessageInfo }

/-- The filtering loop of ChatService.get_checkpoint_list (chat_service.py
lines 84-118): keep only root-namespace checkpoints, only source = loop,
and skip a checkpoint whose messages count equals the previous kept count
(prev_messages_count, None initially, updated only when a checkpoint is
kept). -/
def checkpointRows : List Checkpoint → Option Nat → List CheckpointInfo
  | [], _ => []
  | cp :: rest, prev =>
    if cp.checkpointNs ≠ "" then checkpointRows rest prev
    else if cp.source ≠ "loop" then checkpointRows rest prev
    else if some cp.messages.length = prev then checkpointRows rest prev
    else mkCheckpointInfo cp :: checkpointRows rest (some cp.messages.length)

/-- ChatService.get_checkpoint_list: runs the filtering loop over the
checkpoints the checkpointer lists for the thread and wraps the result in a
CheckpointListResponse with total = number of kept checkpoints. -/
def getCheckpointList (sessionId : String) (cps : List Checkpoint) :
    CheckpointListResponse :=
  let rows := checkpointRows cps none
  { sessionId := sessionId, total := rows.length, checkpoints := rows }

/-- Modelled from the spec: the persistence backend implementing the
Checkpoint Store contract (append, list-by-thread, get-latest,
delete-thread) is the langgraph checkpointer, which is not part of this
repository.  It is modelled as a thread-tagged list of checkpoints. -/
abbrev Store := List (String × Checkpoint)

/-- Modelled from the spec: checkpointer.alist(config) lists the
checkpoints stored for one thread. -/
def storeAlist (store : Store) (threadId : String) : List Checkpoint :=
  (store.filter (fun e => e.1 = threadId)).map (fun e => e.2)

/-- Modelled from the spec: checkpointer.adelete_thread deletes every
checkpoint of the thread (spec section 6, checkpoint purge). -/
def storeAdeleteThread (store : Store) (threadId : String) : Store :=
  store.filter (fun e => e.1 ≠ threadId)

/-- ChatService.purge_checkpoints (chat_service.py lines 126-133): calls
checkpointer.adelete_thread on the session and returns True.  The first
component is the store afterwards. -/
def purgeCheckpoints (store : Store) (sessionId : String) : Store × Bool :=
  (storeAdeleteThread store sessionId, true)

/-- Result dict of the delete-message operations.  aclear_history returns a
dict with only a deleted key, adelete_messages returns deleted and
remaining; remaining = none models the key being absent from the returned
Python dict. -/
structure DeleteResult where
  deleted : Nat
  remaining : Option Nat
deriving DecidableEq

/-- Modelled from the spec: applying RemoveMessage instances through
graph.aupdate_state on the messages channel (the add_messages reducer of
GraphState, implemented in langgraph, not in this repository) deletes
exactly the messages whose id is listed. -/
def applyRemoveMessages (messages : List Msg) (ids : List String) : List Msg :=
  messages.filter (fun m => m.id ∉ ids)

/-- GraphOrchestrator.adelete_messages (graph_orchestrator.py lines
211-230).  Returns the result dict together with the messages channel after
the update.  valid_ids keeps the requested ids that exist in the history
(mid in existing_ids); with no messages it returns deleted 0 / remaining 0,
with no valid id deleted 0 / remaining len(messages), otherwise it issues
RemoveMessage for each valid id and returns deleted = len(valid_ids),
remaining = len(messages) - len(valid_ids). -/
def adeleteMessages (messages : List Msg) (messageIds : List String) :
    DeleteResult × List Msg :=
  if messages = [] then ({ deleted := 0, remaining := some 0 }, messages)
  else
    let validIds := messageIds.filter (fun mid => messages.any (fun m => m.id = mid))
    if validIds = [] then
      ({ deleted := 0, remaining := some messages.length }, messages)
    else
      ({ deleted := validIds.length
         remaining := some (messages.length - validIds.length) },
       applyRemoveMessages messages validIds)

/-- GraphOrchestrator.aclear_history (graph_orchestrator.py lines 232-245).
Issues a RemoveMessage for every message of the thread; the returned dict
has only the deleted key (no remaining). -/
def aclearHistory (messages : List Msg) : DeleteResult × List Msg :=
  if messages = [] then ({ deleted := 0, remaining := none }, messages)
  else
    ({ deleted := messages.length, remaining := none },
     applyRemoveMessages messages (messages.map (fun m => m.id)))

/-- ChatService.delete_messages (chat_service.py lines 135-145): dispatches
on the truthiness of request.message_ids — a missing or empty list clears
the whole history, otherwise the listed messages are deleted. -/
def chatDeleteMessages (messages : List Msg) (messageIds : Option (List String)) :
    DeleteResult × List Msg :=
  match messageIds with
  | some ids => if ids = [] then aclearHistory messages else adeleteMessages messages ids
  | none => aclearHistory messages

/-- The GraphQL resolver delete_messages (api/graphql/resolvers.py) builds
DeleteResultType with remaining := result.get("remaining", 0): an absent
remaining key surfaces as 0. -/
def resolverRemaining (r : DeleteResult) : Nat :=
  r.remaining.getD 0

/-- Role of a message in the handoffs graph (AIMessage / HumanMessage /
ToolMessage). -/
inductive MsgRole
  | human
  | ai
  | tool
deriving DecidableEq

/-- A message as HandoffsGraphOrchestrator._route_after_agent inspects it:
its class and its tool_calls list (payloads abstracted to names). -/
structure AgentMsg where
  role : MsgRole
  toolCalls : List String
  content : List Char
deriving DecidableEq

/-- HandoffsGraphOrchestrator._route_after_agent (handoffs_graph.py lines
212-226): if the last message exists, is an AIMessage and has no
tool_calls, route to END; otherwise route to state.get("active_agent",
"sales_agent"). -/
def routeAfterAgent (messages : List AgentMsg) (activeAgent : Option String) :
    String :=
  match messages.getLast? with
  | some m =>
    if m.role = MsgRole.ai ∧ m.toolCalls = [] then "__end__"
    else activeAgent.getD "sales_agent"
  | none => activeAgent.getD "sales_agent"

/-- HandoffsGraphOrchestrator._route_initial (handoffs_graph.py lines
205-210): state.get("active_agent") or "sales_agent". -/
def routeInitial (activeAgent : Option String) : String :=
  match activeAgent with
  | some a => if a = "" then "sales_agent" else a
  | none => "sales_agent"

/-- SSEEventType (stream/stream_event.py). -/
inductive SSEEventType
  | nodeStart
  | nodeEnd
  | token
  | graphStart
  | graphEnd
  | interrupt
  | error
  | metadata
deriving DecidableEq

/-- Payload of a StreamEvent, mirroring the pydantic event models of
stream_event.py.  Fields that carry wall-clock floats (timestamp,
execution_time) and token/cost accounting are omitted: they do not affect
the event sequence. -/
inductive EventData
  | graphStartData
  | tokenData (content : String) (node : Option String)
  | nodeEndData (nodeName : String)
  | interruptData (interruptInfo : String)
  | graphEndData (status : String) (answer : List Char)
  | errorData (message : String)
deriving DecidableEq

/-- StreamEvent wrapper (stream_event.py): an event type and its data. -/
structure StreamEvent where
  event : SSEEventType
  data : EventData
deriving DecidableEq

/-- One payload of an updates-mode chunk from graph.astream: either an
__interrupt__ entry carrying the interrupt values, or a mapping from node
name to its state update (updates abstracted to the node names). -/
inductive UpdatePayload
  | interrupts (values : List String)
  | nodeUpdates (nodes : List String)
deriving DecidableEq

/-- One chunk yielded by graph.astream with stream_mode =
["messages", "updates"]: a messages-mode chunk (whether the message is an
AIMessageChunk, its content, id, node metadata) or an updates-mode chunk. -/
inductive StreamChunk
  | message (isAIMessageChunk : Bool) (content : String) (node : Option String)
  | update (payload : UpdatePayload)
deriving DecidableEq

/-- StreamProcessor._process_message_event (stream_processor.py lines
124-141): only an AIMessageChunk with non-empty content becomes a TOKEN
event. -/
def processMessageEvent (isAIMessageChunk : Bool) (content : String)
    (node : Option String) : Option StreamEvent :=
  if isAIMessageChunk ∧ content ≠ "" then
    some { event := SSEEventType.token, data := EventData.tokenData content node }
  else none

/-- StreamProcessor._process_update_event (stream_processor.py lines
143-175): an __interrupt__ payload becomes one INTERRUPT event per
interrupt value; otherwise one NODE_END event per node of the update
mapping. -/
def processUpdateEvent (p : UpdatePayload) : List StreamEvent :=
  match p with
  | UpdatePayload.interrupts values =>
    values.map (fun v =>
      { event := SSEEventType.interrupt, data := EventData.interruptData v })
  | UpdatePayload.nodeUpdates nodes =>
    nodes.map (fun n =>
      { event := SSEEventType.nodeEnd, data := EventData.nodeEndData n })

/-- The events emitted inside the async-for loop of
StreamProcessor.astream_events for a list of chunks (lines 46-71). -/
def loopEvents : List StreamChunk → List StreamEvent
  | [] => []
  | StreamChunk.message ai content node :: rest =>
    (processMessageEvent ai content node).toList ++ loopEvents rest
  | StreamChunk.update p :: rest => processUpdateEvent p ++ loopEvents rest

/-- Status tracked by the loop of astream_events: set to interrupted when an
INTERRUPT event is emitted in the loop, else the initial completed. -/
def loopStatus (chunks : List StreamChunk) : String :=
  if (loopEvents chunks).any (fun e => e.event = SSEEventType.interrupt)
  then "interrupted" else "completed"

/-- The graph state astream_events reads after the stream ends (lines
89-110): the next nodes (state.next), the first interrupt value of the
pending tasks (or none), the answer channel value and the messages channel
value. -/
structure FinalState where
  next : List String
  taskInterrupt : Option String
  answerChannel : Option (List Char)
  messages : List Msg
deriving DecidableEq

/-- StreamProcessor._extract_interrupt_from_state (lines 177-183): first
interrupt value of the tasks, or an empty dict (modelled as ""). -/
def extractInterruptFromState (final : FinalState) : String :=
  final.taskInterrupt.getD ""

/-- The final-answer extraction of astream_events (lines 101-110): a truthy
answer channel wins, otherwise the content of the last message, otherwise
the empty string. -/
def extractFinalAnswer (final : FinalState) : List Char :=
  match final.answerChannel with
  | some a =>
    if a ≠ [] then a
    else ((final.messages.getLast?).map Msg.content).getD []
  | none => ((final.messages.getLast?).map Msg.content).getD []

/-- StreamProcessor.astream_events (stream_processor.py lines 26-122) as a
function of the chunks the loop consumed, whether the loop raised
(errored = some message) and the graph state read afterwards:
graph_start first; the loop events; on an exception an ERROR event and
return; otherwise an extra INTERRUPT event when state.next is non-empty,
and always a final GRAPH_END event carrying the status. -/
def astreamEvents (chunks : List StreamChunk) (errored : Option String)
    (final : FinalState) : List StreamEvent :=
  { event := SSEEventType.graphStart, data := EventData.graphStartData } ::
  (loopEvents chunks ++
    match errored with
    | some e => [{ event := SSEEventType.error, data := EventData.errorData e }]
    | none =>
      (if final.next ≠ [] then
        [{ event := SSEEventType.interrupt
           data := EventData.interruptData (extractInterruptFromState final) }]
       else []) ++
      [{ event := SSEEventType.graphEnd
         data := EventData.graphEndData
           (if final.next ≠ [] then "interrupted" else loopStatus chunks)
           (if final.next ≠ [] then [] else extractFinalAnswer final) }])

/-- A terminal event in the sense of the spec contract for the Stream
Transcoder: interrupt, graph_end or error. -/
def isTerminalEvent (e : StreamEvent) : Bool :=
  e.event = SSEEventType.interrupt ∨ e.event = SSEEventType.graphEnd ∨
    e.event = SSEEventType.error

/-- The spec contract as claimed: at most one terminal event and no event
of any kind after a terminal event (so a terminal event, if any, is last). -/
def specTerminalContract (evs : List StreamEvent) : Prop :=
  (evs.filter isTerminalEvent).length ≤ 1 ∧
    ∀ e ∈ evs.dropLast, isTerminalEvent e = false

/-- A pending task of the latest checkpoint (spec section 3): created when
a node suspends, carrying an interrupt value, destroyed once consumed. -/
structure PendingTask where
  taskName : String
  taskId : String
  interruptValue : String
deriving DecidableEq

/-- The durable state of one thread as both orchestrators observe it
through the graph: the checkpoint log and the pending tasks of the latest
checkpoint. -/
structure ThreadState where
  checkpoints : List Checkpoint
  pendingTasks : List PendingTask
deriving DecidableEq

/-- Modelled from the spec: state.next of aget_state — the nodes still to
run; non-empty exactly when the latest checkpoint left pending tasks
(spec section 3: a PendingTask exists only between suspension and
resume). -/
def stateNext (t : ThreadState) : List String :=
  t.pendingTasks.map PendingTask.taskName

/-- The failure of resuming with nothing to resume (spec section 7). -/
inductive ResumeError
  | noPendingInterrupt
deriving DecidableEq

/-- Modelled from the spec: section 4.4 — the Interrupt Controller behind
graph.ainvoke(Command(resume=value)), implemented by langgraph, not in
this repository.  It (1) fails with NoPendingInterruptError if the latest
checkpoint has no pending task, leaving the checkpoint log untouched;
(2) otherwise re-enters the suspended node with the resume value
substituted for the suspend() result and continues the superstep loop —
modelled by the continueRun parameter, which returns the thread state
after the run and the final answer channel value. -/
def controllerResume
    (continueRun : ThreadState → PendingTask → String → ThreadState × List Char)
    (t : ThreadState) (resumeValue : String) :
    Except ResumeError (ThreadState × List Char) :=
  match t.pendingTasks with
  | [] => Except.error ResumeError.noPendingInterrupt
  | task :: _ => Except.ok (continueRun t task resumeValue)

/-- Response dict of the orchestrators: status, answer, interrupt_info and
the handoffs-only message field; none models an absent key. -/
structure InvokeResponse where
  status : String
  answer : List Char
  interruptInfo : Option String
  message : Option String
deriving DecidableEq

/-- GraphOrchestrator._extract_interrupt_info (graph_orchestrator.py lines
248-254): the first interrupt value of the pending tasks, or an empty dict
(modelled as the empty string). -/
def exampleExtractInterruptInfo (t : ThreadState) : String :=
  ((t.pendingTasks.map PendingTask.interruptValue).head?).getD ""

/-- GraphOrchestrator.aresume (graph_orchestrator.py lines 286-314): runs
graph.ainvoke(Command(resume=action)) with no pre-check — an engine
failure propagates to the caller unchanged — then reports interrupted when
state.next is non-empty and completed with the answer otherwise. -/
def exampleAresume
    (continueRun : ThreadState → PendingTask → String → ThreadState × List Char)
    (t : ThreadState) (action : String) :
    Except ResumeError (ThreadState × InvokeResponse) :=
  match controllerResume continueRun t action with
  | Except.error e => Except.error e
  | Except.ok (t2, ans) =>
    if stateNext t2 ≠ [] then
      Except.ok (t2,
        { status := "interrupted", answer := []
          interruptInfo := some (exampleExtractInterruptInfo t2), message := none })
    else
      Except.ok (t2,
        { status := "completed", answer := ans
          interruptInfo := none, message := none })

/-- The error dict HandoffsGraphOrchestrator.aresume returns when there is
nothing to resume (handoffs_graph.py lines 259-263). -/
def handoffsNoInterruptResponse : InvokeResponse :=
  { status := "error", answer := [], interruptInfo := none
    message := some "재개할 interrupt가 없습니다. 이미 처리되었거나 존재하지 않는 세션입니다." }

/-- HandoffsGraphOrchestrator.aresume (handoffs_graph.py lines 253-283):
first checks state.next; with nothing to resume it returns the error dict
without invoking the graph, so the thread state is returned unchanged.
Otherwise it resumes through the engine and reports interrupted or
completed from the state afterwards. -/
def handoffsAresume
    (continueRun : ThreadState → PendingTask → String → ThreadState × List Char)
    (t : ThreadState) (action : String) : ThreadState × InvokeResponse :=
  if stateNext t = [] then (t, handoffsNoInterruptResponse)
  else
    match controllerResume continueRun t action with
    | Except.error _ => (t, handoffsNoInterruptResponse)
    | Except.ok (t2, ans) =>
      if stateNext t2 ≠ [] then
        (t2, { status := "interrupted", answer := []
               interruptInfo := some (exampleExtractInterruptInfo t2), message := none })
      else
        (t2, { status := "completed", answer := ans
               interruptInfo := none, message := none })

/-- Channel values of the example subgraph state: strings, string lists and
messages. -/
inductive ChanValue
  | str (s : String)
  | strList (l : List String)
  | msgVal (m : Msg)
deriving DecidableEq

/-- A subgraph state as an assignment of values to channel names. -/
abbrev ChannelState := List (String × ChanValue)

/-- Reading one channel of the state (a Python dict lookup). -/
def lookupChannel (st : ChannelState) (c : String) : Option ChanValue :=
  (st.find? (fun e => e.1 == c)).map (fun e => e.2)

/-- The channels SubGraphState declares (graph_state.py lines 7-11):
question, analysis, answer — and no analyses channel, although the node
docstrings in graph_orchestrator.py describe analyses as an
Annotated[List[str], operator.add] channel. -/
def subGraphStateChannels : List String := ["question", "analysis", "answer"]

/-- Per-channel merge policy (spec section 3). -/
inductive MergePolicy
  | replace
  | appendValues
deriving DecidableEq

/-- The merge policy of each SubGraphState channel: every declared channel
is a plain (replace) channel, because graph_state.py annotates none of
them with a reducer; an undeclared channel has no policy. -/
def subGraphChannelPolicy (c : String) : Option MergePolicy :=
  if c ∈ subGraphStateChannels then some MergePolicy.replace else none

/-- Modelled from the spec: section 4.1 merge — applying one channel write
with the declared policy of its channel.  A write to a channel with no
declared policy has no merge rule: the engine rejects the update (the
langgraph InvalidUpdateError for writes outside the state schema). -/
def mergeChannelWrite (policy : String → Option MergePolicy) (st : ChannelState)
    (w : String × ChanValue) : Except String ChannelState :=
  match policy w.1 with
  | none => Except.error ("InvalidUpdateError: unknown channel " ++ w.1)
  | some MergePolicy.replace =>
    Except.ok ((st.filter (fun e => e.1 != w.1)) ++ [w])
  | some MergePolicy.appendValues =>
    match lookupChannel st w.1, w.2 with
    | some (ChanValue.strList old), ChanValue.strList new =>
      Except.ok ((st.filter (fun e => e.1 != w.1)) ++ [(w.1, ChanValue.strList (old ++ new))])
    | _, _ => Except.ok ((st.filter (fun e => e.1 != w.1)) ++ [w])

/-- Modelled from the spec: section 4.1 merge over a partial update, one
channel write after the other. -/
def mergeWrites (policy : String → Option MergePolicy) :
    ChannelState → List (String × ChanValue) → Except String ChannelState
  | st, [] => Except.ok st
  | st, w :: rest =>
    match mergeChannelWrite policy st w with
    | Except.error e => Except.error e
    | Except.ok st2 => mergeWrites policy st2 rest

/-- The apostrophe character used inside the Python f-strings. -/
def apos : String := String.mk [Char.ofNat 39]

/-- ANALYSIS_PERSPECTIVES (graph_orchestrator.py line 15). -/
def ANALYSIS_PERSPECTIVES : List String := ["감정분석", "주제분류", "키워드추출"]

/-- A Send packet of the fan-out: target node and the argument dict. -/
structure SendPacket where
  node : String
  questionText : String
  perspective : String
deriving DecidableEq

/-- GraphOrchestrator._fan_out_analysis (graph_orchestrator.py lines
45-60): one Send to AnalyzeWorker per perspective, in the order
ANALYSIS_PERSPECTIVES lists them. -/
def fanOutAnalysis (questionText : String) : List SendPacket :=
  ANALYSIS_PERSPECTIVES.map (fun p =>
    { node := "AnalyzeWorker", questionText := questionText, perspective := p })

/-- The result string one AnalyzeWorker branch produces
(graph_orchestrator.py line 71). -/
def analyzeWorkerResult (questionText perspective : String) : String :=
  "[" ++ perspective ++ "] " ++ apos ++ questionText ++ apos ++ " 분석 결과"

/-- GraphOrchestrator._analyze_worker (graph_orchestrator.py lines 62-75):
the partial update it returns writes the singleton list to the analyses
channel. -/
def analyzeWorkerWrite (questionText perspective : String) :
    List (String × ChanValue) :=
  [("analyses", ChanValue.strList [analyzeWorkerResult questionText perspective])]

/-- GraphOrchestrator._merge_analyses (graph_orchestrator.py lines 77-82):
reads state["analyses"] — a KeyError when the state has no analyses
entry — and writes the joined string to analysis. -/
def mergeAnalysesNode (st : ChannelState) : Except String (List (String × ChanValue)) :=
  match lookupChannel st "analyses" with
  | some (ChanValue.strList analyses) =>
    Except.ok [("analysis", ChanValue.str (String.intercalate " | " analyses))]
  | _ => Except.error "KeyError: analyses"

/-- GraphOrchestrator._human_review after resume (graph_orchestrator.py
lines 84-99), with the resume value substituted for the interrupt() call
result: approve keeps the pre-interrupt analysis, any other value replaces
it. -/
def humanReviewResumed (analysis userDecision : String) :
    List (String × ChanValue) :=
  if userDecision = "approve" then [("analysis", ChanValue.str analysis)]
  else [("analysis", ChanValue.str userDecision)]

/-- The review prompt of the interrupt payload raised by _human_review
(graph_orchestrator.py lines 89-92). -/
def humanReviewInterruptMessage : String :=
  "분석 결과를 검토해주세요. " ++ apos ++ "approve" ++ apos ++
    "로 승인하거나, 수정된 분석 내용을 입력하세요."

/-- The static edges of the example subgraph (graph_orchestrator.py lines
157-172); the conditional entry edge fans out to AnalyzeWorker and
RouteResponse continues through Command(goto=...). -/
def subGraphEdges : List (String × String) :=
  [("AnalyzeWorker", "MergeAnalyses"), ("MergeAnalyses", "HumanReview"),
   ("HumanReview", "RouteResponse"), ("SimpleResponse", "__end__"),
   ("DetailedResponse", "__end__")]

/-- Every entry kept by the filtering loop comes from a root-namespace,
loop-sourced checkpoint of the input and is its mkCheckpointInfo image. -/
theorem checkpointRows_mem : ∀ (cps : List Checkpoint) (prev : Option Nat)
    (info : CheckpointInfo), info ∈ checkpointRows cps prev →
    ∃ cp ∈ cps, cp.checkpointNs = "" ∧ cp.source = "loop" ∧ info = mkCheckpointInfo cp := by
  intro cps
  induction cps with
  | nil => intro prev info h; simp [checkpointRows] at h
  | cons cp rest ih =>
    intro prev info h
    simp only [checkpointRows] at h
    split at h
    · obtain ⟨c, hc, hrest⟩ := ih _ _ h
      exact ⟨c, List.mem_cons_of_mem _ hc, hrest⟩
    · next hns =>
      split at h
      · obtain ⟨c, hc, hrest⟩ := ih _ _ h
        exact ⟨c, List.mem_cons_of_mem _ hc, hrest⟩
      · next hsrc =>
        split at h
        · obtain ⟨c, hc, hrest⟩ := ih _ _ h
          exact ⟨c, List.mem_cons_of_mem _ hc, hrest⟩
        · rcases List.mem_cons.mp h with heq | hmem
          · exact ⟨cp, List.mem_cons_self _ _,
              not_ne_iff.mp hns, not_ne_iff.mp hsrc, heq⟩
          · obtain ⟨c, hc, hrest⟩ := ih _ _ hmem
            exact ⟨c, List.mem_cons_of_mem _ hc, hrest⟩

/-- The first entry the filtering loop keeps has a messages count different
from the running previous count. -/
theorem checkpointRows_head_count : ∀ (cps : List Checkpoint) (prev : Option Nat)
    (info : CheckpointInfo), (checkpointRows cps prev).head? = some info →
    some info.messagesCount ≠ prev := by
  intro cps
  induction cps with
  | nil => intro prev info h; simp [checkpointRows] at h
  | cons cp rest ih =>
    intro prev info h
    simp only [checkpointRows] at h
    split at h
    · exact ih _ _ h
    · split at h
      · exact ih _ _ h
      · split at h
        · exact ih _ _ h
        · next hcount =>
          simp only [List.head?_cons, Option.some.injEq] at h
          subst h
          simpa [mkCheckpointInfo] using hcount

/-- Consecutive entries kept by the filtering loop have different messages
counts. -/
theorem checkpointRows_chain : ∀ (cps : List Checkpoint) (prev : Option Nat),
    List.Chain' (fun a b : CheckpointInfo => a.messagesCount ≠ b.messagesCount)
      (checkpointRows cps prev) := by
  intro cps
  induction cps with
  | nil => intro prev; simp [checkpointRows]
  | cons cp rest ih =>
    intro prev
    simp only [checkpointRows]
    split
    · exact ih _
    · split
      · exact ih _
      · split
        · exact ih _
        · rw [List.chain'_cons']
          refine ⟨?_, ih _⟩
          intro y hy
          have hne := checkpointRows_head_count rest (some cp.messages.length) y hy
          simp only [ne_eq, Option.some.injEq] at hne
          simp only [mkCheckpointInfo, ne_eq]
          exact fun hh => hne hh.symm

/-- C4: for every thread, listCheckpoints returns only checkpoints whose
namespace is the root namespace and whose source is loop, and the returned
list never contains two consecutive entries with identical messageCount. -/
theorem listCheckpoints_filtered_and_deduped (sessionId : String)
    (cps : List Checkpoint) :
    (∀ info ∈ (getCheckpointList sessionId cps).checkpoints,
       ∃ cp ∈ cps, cp.checkpointNs = "" ∧ cp.source = "loop" ∧
         info = mkCheckpointInfo cp) ∧
    List.Chain' (fun a b : CheckpointInfo => a.messagesCount ≠ b.messagesCount)
      (getCheckpointList sessionId cps).checkpoints := by
  refine ⟨?_, checkpointRows_chain cps none⟩
  intro info h
  exact checkpointRows_mem cps none info h

/-- C10: every message entry of a checkpoint listing carries at most 200
characters, the 200-character truncation of the stored message content. -/
theorem listCheckpoints_truncates_content (sessionId : String)
    (cps : List Checkpoint) (info : CheckpointInfo) (m : MessageInfo)
    (hinfo : info ∈ (getCheckpointList sessionId cps).checkpoints)
    (hm : m ∈ info.messages) :
    m.content.length ≤ 200 ∧
      ∃ cp ∈ cps, ∃ msg ∈ cp.messages, m.content = msg.content.take 200 := by
  obtain ⟨cp, hcp, -, -, heq⟩ := checkpointRows_mem cps none info hinfo
  subst heq
  simp only [mkCheckpointInfo, List.mem_map] at hm
  obtain ⟨msg, hmsg, rfl⟩ := hm
  refine ⟨?_, cp, hcp, msg, hmsg, rfl⟩
  simp [mkMessageInfo, List.length_take]

/-- A message longer than 200 characters, for the truncation witness. -/
def demoLongMsg : Msg :=
  { id := "m1", msgType := "ai", content := List.replicate 201 (Char.ofNat 97) }

/-- A minimal root-namespace loop checkpoint holding demoLongMsg. -/
def demoCp : Checkpoint :=
  { checkpointNs := "", source := "loop", checkpointId := "c1", step := 1
    ts := "t", messages := [demoLongMsg] }

/-- Witness for C10 at a concrete 201-character message. -/
theorem listCheckpoints_truncates_content_witness :
    (mkMessageInfo demoLongMsg).content.length ≤ 200 ∧
      ∃ cp ∈ [demoCp], ∃ msg ∈ cp.messages,
        (mkMessageInfo demoLongMsg).content = msg.content.take 200 :=
  listCheckpoints_truncates_content "s" [demoCp] (mkCheckpointInfo demoCp)
    (mkMessageInfo demoLongMsg)
    (by simp [getCheckpointList, checkpointRows, demoCp])
    (by simp [mkCheckpointInfo, demoCp])

/-- C5: purging a thread and then listing its checkpoints returns the empty
listing with total = 0. -/
theorem purge_then_list_empty (store : Store) (sessionId : String) :
    getCheckpointList sessionId
        (storeAlist (purgeCheckpoints store sessionId).1 sessionId) =
      { sessionId := sessionId, total := 0, checkpoints := [] } := by
  have h : storeAlist (storeAdeleteThread store sessionId) sessionId = [] := by
    simp only [storeAlist, storeAdeleteThread]
    rw [List.map_eq_nil_iff]
    rw [List.filter_eq_nil_iff]
    intro a ha
    have h2 := (List.mem_filter.mp ha).2
    simp at h2 ⊢
    exact h2
  show getCheckpointList sessionId
      (storeAlist (storeAdeleteThread store sessionId) sessionId) = _
  rw [h]
  rfl

/-- C6: adelete_messages removes exactly the requested ids that exist,
returns deleted = the number of requested ids present and remaining = the
prior count minus deleted; with ids = [x, y] where only x exists it
returns deleted = 1 and remaining = totalBefore - 1. -/
theorem deleteMessages_exact (messages : List Msg) (messageIds : List String)
    (x y : String)
    (hx : messages.any (fun m => m.id = x) = true)
    (hy : messages.any (fun m => m.id = y) = false) :
    (adeleteMessages messages messageIds).2 =
        messages.filter (fun m => m.id ∉ messageIds) ∧
    (adeleteMessages messages messageIds).1.deleted =
        (messageIds.filter (fun mid => messages.any (fun m => m.id = mid))).length ∧
    (adeleteMessages messages messageIds).1.remaining =
        some (messages.length - (adeleteMessages messages messageIds).1.deleted) ∧
    (adeleteMessages messages [x, y]).1.deleted = 1 ∧
    (adeleteMessages messages [x, y]).1.remaining = some (messages.length - 1) := by
  have hmain : ∀ (ids : List String),
      (adeleteMessages messages ids).2 =
          messages.filter (fun m => m.id ∉ ids) ∧
      (adeleteMessages messages ids).1.deleted =
          (ids.filter (fun mid => messages.any (fun m => m.id = mid))).length ∧
      (adeleteMessages messages ids).1.remaining =
          some (messages.length - (adeleteMessages messages ids).1.deleted) := by
    intro ids
    by_cases hempty : messages = []
    · subst hempty
      simp [adeleteMessages]
    · rw [adeleteMessages, if_neg hempty]
      simp only
      by_cases hv : ids.filter (fun mid => messages.any (fun m => m.id = mid)) = []
      · rw [if_pos hv]
        refine ⟨?_, by simp [hv], by simp⟩
        rw [eq_comm, List.filter_eq_self]
        intro m hm
        simp only [decide_not, Bool.not_eq_eq_eq_not, Bool.not_true, decide_eq_false_iff_not]
        intro hmem
        have : m.id ∈ ids.filter (fun mid => messages.any (fun m2 => m2.id = mid)) :=
          List.mem_filter.mpr ⟨hmem, List.any_eq_true.mpr ⟨m, hm, by simp⟩⟩
        simp [hv] at this
      · rw [if_neg hv]
        refine ⟨?_, rfl, rfl⟩
        show applyRemoveMessages messages _ = _
        rw [applyRemoveMessages]
        apply List.filter_congr
        intro m hm
        simp only [decide_not]
        congr 1
        rw [decide_eq_decide]
        constructor
        · intro hnv
          exact (List.mem_filter.mp hnv).1
        · intro hni
          exact List.mem_filter.mpr
            ⟨hni, List.any_eq_true.mpr ⟨m, hm, by simp⟩⟩
  obtain ⟨h1, h2, h3⟩ := hmain messageIds
  refine ⟨h1, h2, h3, ?_, ?_⟩
  · have h4 := (hmain [x, y]).2.1
    rw [h4]
    simp only [List.filter]
    rw [hx, hy]
    rfl
  · have h4 := (hmain [x, y]).2.1
    have h5 := (hmain [x, y]).2.2
    rw [h5, h4]
    simp only [List.filter]
    rw [hx, hy]
    rfl

/-- A two-message history for the delete witnesses. -/
def demoMsgA : Msg := { id := "m1", msgType := "human", content := [] }

/-- Second message of the demo history. -/
def demoMsgB : Msg := { id := "m2", msgType := "ai", content := [] }

/-- The demo history. -/
def demoMsgs : List Msg := [demoMsgA, demoMsgB]

/-- Witness for C6 with ids = [m1, zz] where only m1 exists. -/
theorem deleteMessages_exact_witness :
    (adeleteMessages demoMsgs ["m1", "zz"]).2 =
        demoMsgs.filter (fun m => m.id ∉ (["m1", "zz"] : List String)) ∧
    (adeleteMessages demoMsgs ["m1", "zz"]).1.deleted =
        ((["m1", "zz"] : List String).filter
          (fun mid => demoMsgs.any (fun m => m.id = mid))).length ∧
    (adeleteMessages demoMsgs ["m1", "zz"]).1.remaining =
        some (demoMsgs.length - (adeleteMessages demoMsgs ["m1", "zz"]).1.deleted) ∧
    (adeleteMessages demoMsgs ["m1", "zz"]).1.deleted = 1 ∧
    (adeleteMessages demoMsgs ["m1", "zz"]).1.remaining = some (demoMsgs.length - 1) :=
  deleteMessages_exact demoMsgs ["m1", "zz"] "m1" "zz" (by decide) (by decide)

/-- C7 amended: delete with ids omitted clears the whole history and
returns a dict holding only deleted = the prior message count; the
remaining key is absent (the GraphQL resolver surfaces it as 0). -/
theorem clear_history_deletes_all (messages : List Msg) :
    (chatDeleteMessages messages none).2 = [] ∧
    (chatDeleteMessages messages none).1.deleted = messages.length ∧
    (chatDeleteMessages messages none).1.remaining = none ∧
    resolverRemaining (chatDeleteMessages messages none).1 = 0 := by
  by_cases h : messages = []
  · subst h
    simp [chatDeleteMessages, aclearHistory, resolverRemaining]
  · simp only [chatDeleteMessages]
    rw [aclearHistory, if_neg h]
    refine ⟨?_, rfl, rfl, rfl⟩
    rw [applyRemoveMessages]
    rw [List.filter_eq_nil_iff]
    intro m hm
    simp only [decide_not, Bool.not_eq_true', decide_eq_false_iff_not, not_not]
    exact List.mem_map.mpr ⟨m, hm, rfl⟩

/-- Counterexample for C7 as stated: clearing a two-message history returns
a dict whose remaining key is absent, so the result does not have the
claimed shape with both deleted and remaining. -/
theorem clear_history_shape_counterexample :
    (chatDeleteMessages demoMsgs none).1.deleted = 2 ∧
    (chatDeleteMessages demoMsgs none).1.remaining = none ∧
    (chatDeleteMessages demoMsgs none).1.remaining.isSome = false := by
  decide

/-- C9: with an activeAgent value that occurs in the handoffs graph (absent,
sales_agent or support_agent), the post-agent router goes to END exactly
when the last message is an AIMessage without tool calls, and otherwise to
the node named by activeAgent, defaulting to sales_agent. -/
theorem routeAfterAgent_spec (messages : List AgentMsg)
    (activeAgent : Option String)
    (hagent : activeAgent = none ∨ activeAgent = some "sales_agent" ∨
      activeAgent = some "support_agent") :
    (routeAfterAgent messages activeAgent = "__end__" ↔
      ∃ m, messages.getLast? = some m ∧ m.role = MsgRole.ai ∧ m.toolCalls = []) ∧
    (routeAfterAgent messages activeAgent ≠ "__end__" →
      routeAfterAgent messages activeAgent = activeAgent.getD "sales_agent") := by
  have hne : activeAgent.getD "sales_agent" ≠ "__end__" := by
    rcases hagent with h | h | h <;> subst h <;> decide
  cases hlast : messages.getLast? with
  | none =>
    have hr : routeAfterAgent messages activeAgent = activeAgent.getD "sales_agent" := by
      rw [routeAfterAgent, hlast]
    rw [hr]
    refine ⟨⟨fun h => absurd h hne, ?_⟩, fun _ => rfl⟩
    rintro ⟨m, hm, -⟩
    exact Option.noConfusion hm
  | some m =>
    by_cases hcond : m.role = MsgRole.ai ∧ m.toolCalls = []
    · have hr : routeAfterAgent messages activeAgent = "__end__" := by
        rw [routeAfterAgent, hlast]
        exact if_pos hcond
      rw [hr]
      exact ⟨⟨fun _ => ⟨m, rfl, hcond⟩, fun _ => rfl⟩, fun h => absurd rfl h⟩
    · have hr : routeAfterAgent messages activeAgent = activeAgent.getD "sales_agent" := by
        rw [routeAfterAgent, hlast]
        exact if_neg hcond
      rw [hr]
      refine ⟨⟨fun h => absurd h hne, ?_⟩, fun _ => rfl⟩
      rintro ⟨m2, hm2, hrole, htools⟩
      rw [Option.some.injEq] at hm2
      exact absurd (hm2 ▸ ⟨hrole, htools⟩) hcond

/-- A terminal AI answer for the routing witness. -/
def demoAiFinal : AgentMsg := { role := MsgRole.ai, toolCalls := [], content := [] }

/-- Witness for C9 at a one-message state with activeAgent sales_agent. -/
theorem routeAfterAgent_spec_witness :
    (routeAfterAgent [demoAiFinal] (some "sales_agent") = "__end__" ↔
      ∃ m, ([demoAiFinal] : List AgentMsg).getLast? = some m ∧
        m.role = MsgRole.ai ∧ m.toolCalls = []) ∧
    (routeAfterAgent [demoAiFinal] (some "sales_agent") ≠ "__end__" →
      routeAfterAgent [demoAiFinal] (some "sales_agent") =
        (some "sales_agent").getD "sales_agent") :=
  routeAfterAgent_spec [demoAiFinal] (some "sales_agent") (Or.inr (Or.inl rfl))

/-- C1: when the latest checkpoint has no pending interrupt task, resume
fails on both orchestrators — the example orchestrator propagates the
engine failure NoPendingInterruptError, the handoffs orchestrator returns
its error response without invoking the graph — and the thread state, in
particular its checkpoint log, is unchanged. -/
theorem resume_no_pending_fails
    (continueRun : ThreadState → PendingTask → String → ThreadState × List Char)
    (t : ThreadState) (action : String) (h : t.pendingTasks = []) :
    exampleAresume continueRun t action =
        Except.error ResumeError.noPendingInterrupt ∧
    handoffsAresume continueRun t action = (t, handoffsNoInterruptResponse) ∧
    (handoffsAresume continueRun t action).1.checkpoints = t.checkpoints := by
  have hnext : stateNext t = [] := by simp [stateNext, h]
  refine ⟨?_, ?_, ?_⟩
  · rw [exampleAresume, controllerResume, h]
  · rw [handoffsAresume, if_pos hnext]
  · rw [handoffsAresume, if_pos hnext]

/-- An idle thread (one checkpoint, no pending task) for the C1 witness. -/
def demoIdleThread : ThreadState :=
  { checkpoints := [demoCp], pendingTasks := [] }

/-- Witness for C1 at the idle thread. -/
theorem resume_no_pending_fails_witness :
    exampleAresume (fun t _ _ => (t, [])) demoIdleThread "approve" =
        Except.error ResumeError.noPendingInterrupt ∧
    handoffsAresume (fun t _ _ => (t, [])) demoIdleThread "approve" =
        (demoIdleThread, handoffsNoInterruptResponse) ∧
    (handoffsAresume (fun t _ _ => (t, [])) demoIdleThread "approve").1.checkpoints =
        demoIdleThread.checkpoints :=
  resume_no_pending_fails (fun t _ _ => (t, [])) demoIdleThread "approve" rfl

/-- A subgraph state whose entries all use declared SubGraphState channels
holds nothing under the analyses key. -/
theorem lookupChannel_analyses_none (st : ChannelState)
    (hw : ∀ e ∈ st, e.1 ∈ subGraphStateChannels) :
    lookupChannel st "analyses" = none := by
  rw [lookupChannel]
  cases hfind : st.find? (fun e => e.1 == "analyses") with
  | none => rfl
  | some e =>
    have hmem := List.mem_of_find?_eq_some hfind
    have hpred := List.find?_some hfind
    have heq : e.1 = "analyses" := by simpa using hpred
    have hbad : ("analyses" : String) ∈ subGraphStateChannels := heq ▸ hw e hmem
    exact absurd hbad (by decide)

/-- C3: the analyses channel the fan-out branches write and the join node
reads is not declared by SubGraphState, so the worker write is rejected by
the merge and the join node's read fails on every state over the declared
channels — the claimed per-branch append merge cannot happen. -/
theorem fanout_analyses_channel_missing (st : ChannelState) (q p : String) :
    ("analyses" ∈ subGraphStateChannels ↔ False) ∧
    (fanOutAnalysis q).map SendPacket.perspective = ANALYSIS_PERSPECTIVES ∧
    mergeWrites subGraphChannelPolicy st (analyzeWorkerWrite q p) =
      Except.error ("InvalidUpdateError: unknown channel " ++ "analyses") ∧
    ((∀ e ∈ st, e.1 ∈ subGraphStateChannels) →
      mergeAnalysesNode st = Except.error "KeyError: analyses") := by
  refine ⟨by decide, rfl, rfl, ?_⟩
  intro hw
  rw [mergeAnalysesNode, lookupChannel_analyses_none st hw]

/-- Witness for C3 at the state a run reaches before MergeAnalyses. -/
theorem fanout_analyses_channel_missing_witness :
    (("analyses" : String) ∈ subGraphStateChannels ↔ False) ∧
    (fanOutAnalysis "hello").map SendPacket.perspective = ANALYSIS_PERSPECTIVES ∧
    mergeWrites subGraphChannelPolicy [("question", ChanValue.str "hello")]
        (analyzeWorkerWrite "hello" "감정분석") =
      Except.error ("InvalidUpdateError: unknown channel " ++ "analyses") ∧
    ((∀ e ∈ [("question", ChanValue.str "hello")], e.1 ∈ subGraphStateChannels) →
      mergeAnalysesNode [("question", ChanValue.str "hello")] =
        Except.error "KeyError: analyses") :=
  fanout_analyses_channel_missing [("question", ChanValue.str "hello")] "hello" "감정분석"

/-- C8: after resume the HumanReview node behaves as claimed (approve keeps
the pre-interrupt analysis, any other value replaces it), but the claimed
invoke scenario cannot reach the interrupt: every fan-out branch targets
AnalyzeWorker, whose analyses write the merge rejects, and the only edge
into HumanReview comes from MergeAnalyses, whose read of the undeclared
analyses channel fails on every state over the declared channels. -/
theorem human_review_resume_semantics (a v q : String) (st : ChannelState) :
    humanReviewResumed a "approve" = [("analysis", ChanValue.str a)] ∧
    (v ≠ "approve" → humanReviewResumed a v = [("analysis", ChanValue.str v)]) ∧
    (fanOutAnalysis q).map SendPacket.node =
      ["AnalyzeWorker", "AnalyzeWorker", "AnalyzeWorker"] ∧
    subGraphEdges.filter (fun e => e.2 == "HumanReview") =
      [("MergeAnalyses", "HumanReview")] ∧
    mergeWrites subGraphChannelPolicy st (analyzeWorkerWrite q "감정분석") =
      Except.error ("InvalidUpdateError: unknown channel " ++ "analyses") ∧
    ((∀ e ∈ st, e.1 ∈ subGraphStateChannels) →
      mergeAnalysesNode st = Except.error "KeyError: analyses") := by
  refine ⟨rfl, ?_, rfl, by decide, rfl, ?_⟩
  · intro hv
    rw [humanReviewResumed, if_neg hv]
  · intro hw
    rw [mergeAnalysesNode, lookupChannel_analyses_none st hw]

/-- No event emitted inside the streaming loop is a graph_end or error
event. -/
theorem loopEvents_not_final : ∀ (chunks : List StreamChunk) (e : StreamEvent),
    e ∈ loopEvents chunks →
    e.event ≠ SSEEventType.graphEnd ∧ e.event ≠ SSEEventType.error := by
  intro chunks
  induction chunks with
  | nil => intro e h; simp [loopEvents] at h
  | cons c rest ih =>
    intro e h
    cases c with
    | message ai content node =>
      simp only [loopEvents] at h
      rcases List.mem_append.mp h with h1 | h2
      · rw [processMessageEvent] at h1
        split at h1
        · simp only [Option.toList_some, List.mem_singleton] at h1
          subst h1
          exact ⟨by simp, by simp⟩
        · simp at h1
      · exact ih e h2
    | update p =>
      simp only [loopEvents] at h
      rcases List.mem_append.mp h with h1 | h2
      · cases p with
        | interrupts values =>
          simp only [processUpdateEvent, List.mem_map] at h1
          obtain ⟨v, -, rfl⟩ := h1
          exact ⟨by simp, by simp⟩
        | nodeUpdates nodes =>
          simp only [processUpdateEvent, List.mem_map] at h1
          obtain ⟨n, -, rfl⟩ := h1
          exact ⟨by simp, by simp⟩
      · exact ih e h2

/-- A sequence made of non-final events followed by one final event has
exactly one graph_end-or-error event, placed last, with nothing after it. -/
theorem terminal_last_of_concat (front : List StreamEvent) (lastEv : StreamEvent)
    (hfront : ∀ e ∈ front,
      e.event ≠ SSEEventType.graphEnd ∧ e.event ≠ SSEEventType.error)
    (hlast : lastEv.event = SSEEventType.graphEnd ∨
      lastEv.event = SSEEventType.error) :
    ((front ++ [lastEv]).filter
        (fun e => decide (e.event = SSEEventType.graphEnd ∨
          e.event = SSEEventType.error))).length = 1 ∧
    (∃ e, (front ++ [lastEv]).getLast? = some e ∧
      (e.event = SSEEventType.graphEnd ∨ e.event = SSEEventType.error)) ∧
    (∀ e ∈ (front ++ [lastEv]).dropLast,
      e.event ≠ SSEEventType.graphEnd ∧ e.event ≠ SSEEventType.error) := by
  refine ⟨?_, ⟨lastEv, by rw [List.getLast?_concat], hlast⟩, ?_⟩
  · rw [List.filter_append]
    have h1 : front.filter
        (fun e => decide (e.event = SSEEventType.graphEnd ∨
          e.event = SSEEventType.error)) = [] := by
      rw [List.filter_eq_nil_iff]
      intro e he
      simp only [decide_eq_true_eq]
      rintro (h | h)
      · exact (hfront e he).1 h
      · exact (hfront e he).2 h
    have h2 : List.filter
        (fun e => decide (e.event = SSEEventType.graphEnd ∨
          e.event = SSEEventType.error)) [lastEv] = [lastEv] := by
      rcases hlast with h | h <;> simp [List.filter_singleton, h]
    rw [h1, h2]
    rfl
  · rw [List.dropLast_concat]
    exact hfront

/-- C2 amended: the stream transcoder emits exactly one graph_end or error
event, it is the last event of the sequence, and no event of any kind
follows it; interrupt events are not terminal — the final graph_end
(status interrupted) follows them. -/
theorem astreamEvents_terminal_last (chunks : List StreamChunk)
    (errored : Option String) (final : FinalState) :
    ((astreamEvents chunks errored final).filter
        (fun e => decide (e.event = SSEEventType.graphEnd ∨
          e.event = SSEEventType.error))).length = 1 ∧
    (∃ e, (astreamEvents chunks errored final).getLast? = some e ∧
      (e.event = SSEEventType.graphEnd ∨ e.event = SSEEventType.error)) ∧
    (∀ e ∈ (astreamEvents chunks errored final).dropLast,
      e.event ≠ SSEEventType.graphEnd ∧ e.event ≠ SSEEventType.error) := by
  cases errored with
  | some msg =>
    have hform : astreamEvents chunks (some msg) final =
        ({ event := SSEEventType.graphStart, data := EventData.graphStartData } ::
          loopEvents chunks) ++
          [{ event := SSEEventType.error, data := EventData.errorData msg }] := rfl
    rw [hform]
    apply terminal_last_of_concat
    · intro e he
      rcases List.mem_cons.mp he with rfl | hm
      · exact ⟨by decide, by decide⟩
      · exact loopEvents_not_final chunks e hm
    · exact Or.inr rfl
  | none =>
    by_cases hnext : final.next = []
    · have hform : astreamEvents chunks none final =
          ({ event := SSEEventType.graphStart, data := EventData.graphStartData } ::
            loopEvents chunks) ++
            [{ event := SSEEventType.graphEnd
               data := EventData.graphEndData (loopStatus chunks)
                 (extractFinalAnswer final) }] := by
        rw [astreamEvents]
        simp [hnext]
      rw [hform]
      apply terminal_last_of_concat
      · intro e he
        rcases List.mem_cons.mp he with rfl | hm
        · exact ⟨by decide, by decide⟩
        · exact loopEvents_not_final chunks e hm
      · exact Or.inl rfl
    · have hform : astreamEvents chunks none final =
          ({ event := SSEEventType.graphStart, data := EventData.graphStartData } ::
            (loopEvents chunks ++
              [{ event := SSEEventType.interrupt
                 data := EventData.interruptData (extractInterruptFromState final) }])) ++
            [{ event := SSEEventType.graphEnd
               data := EventData.graphEndData "interrupted" [] }] := by
        rw [astreamEvents]
        simp [hnext]
      rw [hform]
      apply terminal_last_of_concat
      · intro e he
        rcases List.mem_cons.mp he with rfl | hm
        · exact ⟨by decide, by decide⟩
        · rcases List.mem_append.mp hm with hl | hr
          · exact loopEvents_not_final chunks e hl
          · rw [List.mem_singleton] at hr
            subst hr
            exact ⟨by simp, by simp⟩
      · exact Or.inl rfl

/-- The final state of an interrupted run, for the C2 counterexample. -/
def c2DemoFinal : FinalState :=
  { next := ["HumanReview"], taskInterrupt := some "review"
    answerChannel := none, messages := [] }

/-- Counterexample for C2 as stated: in an interrupted run the transcoder
emits an interrupt chunk event, a second interrupt event from the final
state check and then a graph_end — three terminal events, with events
after an interrupt. -/
theorem stream_interrupt_not_terminal :
    ¬ specTerminalContract
        (astreamEvents [StreamChunk.update (UpdatePayload.interrupts ["review"])]
          none c2DemoFinal) := by
  unfold specTerminalContract
  decide
